import Mathlib

/-!
Shallow embedding of the animation-clip consolidation engine and the
material/texture normalization pipeline of the 3d-animation-merger
application (scripts/main.js).

Numbers: the JavaScript code only compares and copies numeric values (it
performs no arithmetic on keyframe data), so JS doubles are modelled as
exact rationals (`ℚ`); decimal literals such as `0.01` are written
`mkRat 1 100`.  Strings are modelled as Lean `String`s, with the JS
operations `toLowerCase`, `includes` and `trim` re-implemented over the
character list (ASCII case folding, which covers every name the code
compares).  Object identity of textures (JS `===`) is modelled by a
numeric `id` carried by each `Texture`: each decoded image yields one
fresh id, and two slots alias the same underlying image exactly when they
hold a `Texture` with the same id.
-/

/-- ASCII lower-casing of one character, the behaviour of JS
`toLowerCase` on the names the code compares. -/
def charLower (c : Char) : Char :=
  if 'A' ≤ c ∧ c ≤ 'Z' then Char.ofNat (c.toNat + 32) else c

/-- The character list of `s.toLowerCase()`. -/
def jsToLowerList (s : String) : List Char :=
  s.toList.map charLower

/-- Does `pat` occur at the head of `l`? -/
def leadsWith : List Char → List Char → Bool
  | [], _ => true
  | _ :: _, [] => false
  | p :: ps, c :: cs => p == c && leadsWith ps cs

/-- Does `pat` occur anywhere in the list? (Helper for JS `includes`.) -/
def includesFrom (pat : List Char) : List Char → Bool
  | [] => leadsWith pat []
  | c :: cs => leadsWith pat (c :: cs) || includesFrom pat cs

/-- JS `hay.includes(pat)` over character lists. -/
def listIncludes (hay pat : List Char) : Bool :=
  includesFrom pat hay

/-- JS `String.prototype.trim` (whitespace at both ends removed). -/
def jsTrim (s : String) : String :=
  String.mk (((s.toList.dropWhile Char.isWhitespace).reverse.dropWhile
    Char.isWhitespace).reverse)

/-! ## Animation data model

A keyframe track as the code sees it: a name, the keyframe times and the
flat value array (`track.times`, `track.values` of a three.js
`KeyframeTrack`). -/

structure Track where
  name : String
  times : List ℚ
  values : List ℚ
deriving DecidableEq

/-- An animation clip: `name`, `duration` and its tracks. -/
structure Clip where
  name : String
  duration : ℚ
  tracks : List Track
deriving DecidableEq

/-- `track.getValueSize()`: `values.length / times.length`.  With no
keyframes the JS division yields NaN/Infinity, modelled as `none`. -/
def getValueSize (t : Track) : Option ℚ :=
  if t.times.length = 0 then none
  else some (mkRat t.values.length t.times.length)

/-- The root-track test of `makeAnimationsInPlace`: the lower-cased track
name contains `"position"` and one of `"hips"`, `"root"`, `"pelvis"`. -/
def trackNameMatchesRoot (t : Track) : Bool :=
  let trackName := jsToLowerList t.name
  listIncludes trackName "position".toList &&
    (listIncludes trackName "hips".toList ||
     listIncludes trackName "root".toList ||
     listIncludes trackName "pelvis".toList)

/-- The value-array rewrite of `makeAnimationsInPlace`: for
`i = 0, 3, 6, …` set `values[i] := startX` and `values[i+2] := startZ`,
leaving `values[i+1]` (the Y component) alone.  The two short tail cases
mirror the JS loop on an array whose length is not a multiple of three
(an out-of-range typed-array write is a no-op). -/
def clampXZ (startX startZ : ℚ) : List ℚ → List ℚ
  | _ :: y :: _ :: rest => startX :: y :: startZ :: clampXZ startX startZ rest
  | [_, y] => [startX, y]
  | [_] => [startX]
  | [] => []

/-- The per-track body of `makeAnimationsInPlace`: a track whose name
matches the root test and whose `getValueSize()` is `3` has its X and Z
samples clamped to the first keyframe's values; every other track is
returned unchanged. -/
def transformTrack (track : Track) : Track :=
  if trackNameMatchesRoot track then
    if getValueSize track = some 3 then
      { track with
        values := clampXZ (track.values.getD 0 0) (track.values.getD 2 0)
          track.values }
    else track
  else track

/-- `makeAnimationsInPlace(animations)`: clone every clip and clamp the
horizontal motion of its root position tracks.  The clip list is returned
as-is when empty (the JS early return). -/
def makeAnimationsInPlace (animations : List Clip) : List Clip :=
  if animations.length = 0 then animations
  else animations.map fun clip =>
    { clip with tracks := clip.tracks.map transformTrack }

/-- The application state the clip registry lives in:
`this.object.animations` (the active list) and `this.originalAnimations`
(`null` until first stored). -/
structure AppAnimState where
  animations : List Clip
  originalAnimations : Option (List Clip)
deriving DecidableEq

/-- `onInPlaceToggle`: on a non-empty clip list, store the original clips
if not already stored, then either apply `makeAnimationsInPlace` to the
originals (checked) or restore clones of the originals (unchecked).
Cloning is the identity on pure values. -/
def onInPlaceToggle (isChecked : Bool) (s : AppAnimState) : AppAnimState :=
  if s.animations.length = 0 then s
  else
    let originals :=
      match s.originalAnimations with
      | some o => o
      | none => s.animations
    if isChecked then
      { animations := makeAnimationsInPlace originals
        originalAnimations := some originals }
    else
      { animations := originals
        originalAnimations := some originals }

/-- First index of the entry identical to `c` (JS `Array.indexOf` before
its `-1` encoding). -/
def jsIndexOfAux (c : Clip) : List Clip → Option Nat
  | [] => none
  | x :: rest => if x = c then some 0 else (jsIndexOfAux c rest).map (· + 1)

/-- JS `animations.indexOf(animation)`: first index of `c`, `-1` when
absent. -/
def jsIndexOf (l : List Clip) (c : Clip) : Int :=
  match jsIndexOfAux c l with
  | some i => (i : Int)
  | none => -1

/-- JS `l.splice(start, 1)`: a negative `start` counts from the end,
clamped at `0`; a too-large `start` removes nothing. -/
def spliceRemoveOne (l : List Clip) (start : Int) : List Clip :=
  l.eraseIdx
    (if start < 0 then (max ((l.length : Int) + start) 0).toNat
     else min start.toNat l.length)

/-- The delete-button handler:
`this.object.animations.splice(this.object.animations.indexOf(animation), 1)`.
`originalAnimations` is not touched. -/
def deleteAnimationClick (s : AppAnimState) (c : Clip) : AppAnimState :=
  { s with animations := spliceRemoveOne s.animations (jsIndexOf s.animations c) }

/-- Overwrite the name of the clip at index `i` (the effect of
`animations[i].name = newName`); no-op when `i` is out of range. -/
def setClipName : List Clip → Nat → String → List Clip
  | [], _, _ => []
  | c :: rest, 0, nm => { c with name := nm } :: rest
  | c :: rest, n + 1, nm => c :: setClipName rest n nm

/-- The rename-button save branch:
`const newName = input.value.trim() || Animation_<i>` written into the
active clip at `i` and, when `this.originalAnimations` exists and has an
entry at `i`, into that entry too. -/
def renameAnimationAt (s : AppAnimState) (i : Nat) (raw : String) : AppAnimState :=
  let newName := if jsTrim raw = "" then "Animation_" ++ toString i else jsTrim raw
  { animations := setClipName s.animations i newName
    originalAnimations :=
      match s.originalAnimations with
      | some ol => some (if i < ol.length then setClipName ol i newName else ol)
      | none => none }

/-- `animation.duration < 0.01`, the static-pose test used by the
animation click handler and by `render`. -/
def isStaticPose (c : Clip) : Bool :=
  c.duration < mkRat 1 100

/-- three.js loop modes used by the code (`THREE.LoopOnce`,
`THREE.LoopRepeat`). -/
inductive LoopMode
  | loopOnce
  | loopRepeat
deriving DecidableEq

/-- The part of a three.js `AnimationAction` the click handler
configures. -/
structure ActionConfig where
  loop : LoopMode
  clampWhenFinished : Bool
  timeScale : ℚ
deriving DecidableEq

/-- The animation click handler's action setup: a static pose is set to
`LoopOnce` with `clampWhenFinished`, any other clip honours the global
loop flag (`clampWhenFinished` keeps its three.js default `false`). -/
def playClipAction (clip : Clip) (isLooping : Bool) (speed : ℚ) : ActionConfig :=
  if isStaticPose clip then
    { loop := .loopOnce, clampWhenFinished := true, timeScale := speed }
  else
    { loop := if isLooping then .loopRepeat else .loopOnce
      clampWhenFinished := false
      timeScale := speed }

/-- JS `<` where the left operand may be NaN (`parseFloat` of a
non-numeric input, modelled as `none`): any comparison with NaN is
false. -/
def jsLtQ : Option ℚ → ℚ → Bool
  | none, _ => false
  | some x, c => x < c

/-- JS `>` with a possibly-NaN left operand. -/
def jsGtQ : Option ℚ → ℚ → Bool
  | none, _ => false
  | some x, c => c < x

/-- What `onSpeedChange` writes: `this.animationSpeed`, and the active
animation's `timeScale` when an animation exists (`none` outer value =
no active animation). -/
structure SpeedUpdate where
  animationSpeed : Option ℚ
  appliedTimeScale : Option (Option ℚ)
deriving DecidableEq

/-- `onSpeedChange`: `parseFloat` the input (NaN = `none`), clamp below
at `0.1` and above at `5`, store the result and apply it as the active
animation's time scale. -/
def onSpeedChange (hasAnimation : Bool) (entered : Option ℚ) : SpeedUpdate :=
  let speed := entered
  let speed := if jsLtQ speed (mkRat 1 10) then some (mkRat 1 10) else speed
  let speed := if jsGtQ speed 5 then some 5 else speed
  { animationSpeed := speed
    appliedTimeScale := if hasAnimation then some speed else none }

/-! ## Material / texture data model -/

/-- three.js colour-space tags (`THREE.SRGBColorSpace`,
`THREE.LinearSRGBColorSpace`). -/
inductive ColorSpace
  | srgb
  | linearSRGB
deriving DecidableEq

/-- A loaded texture: `id` stands for the identity of the underlying
image object (JS `===`), plus its colour-space tag. -/
structure Texture where
  id : Nat
  colorSpace : ColorSpace
deriving DecidableEq

/-- The PBR slot names used by `this.pbrTextures` and the material
fields. -/
inductive MapType
  | map
  | normalMap
  | metalnessMap
  | roughnessMap
  | aoMap
  | emissiveMap
deriving DecidableEq

/-- `this.pbrTextures`: one optional texture per slot. -/
structure PBRTextures where
  map : Option Texture
  normalMap : Option Texture
  metalnessMap : Option Texture
  roughnessMap : Option Texture
  aoMap : Option Texture
  emissiveMap : Option Texture
deriving DecidableEq

/-- Read one slot of `this.pbrTextures`. -/
def getPBRSlot (p : PBRTextures) : MapType → Option Texture
  | .map => p.map
  | .normalMap => p.normalMap
  | .metalnessMap => p.metalnessMap
  | .roughnessMap => p.roughnessMap
  | .aoMap => p.aoMap
  | .emissiveMap => p.emissiveMap

/-- Write one slot of `this.pbrTextures`. -/
def setPBRSlot (p : PBRTextures) (mt : MapType) (t : Texture) : PBRTextures :=
  match mt with
  | .map => { p with map := some t }
  | .normalMap => { p with normalMap := some t }
  | .metalnessMap => { p with metalnessMap := some t }
  | .roughnessMap => { p with roughnessMap := some t }
  | .aoMap => { p with aoMap := some t }
  | .emissiveMap => { p with emissiveMap := some t }

/-- An RGB colour. -/
structure RGB where
  r : ℚ
  g : ℚ
  b : ℚ
deriving DecidableEq

/-- The material kinds the code probes through the three.js `isXXX`
flags. -/
inductive MatKind
  | basic
  | lambert
  | phong
  | standard
  | physical
deriving DecidableEq

/-- `mat.isMeshStandardMaterial || mat.isMeshPhysicalMaterial`. -/
def isPBRKind : MatKind → Bool
  | .standard => true
  | .physical => true
  | _ => false

/-- `mat.isMeshPhongMaterial || mat.isMeshLambertMaterial ||
mat.isMeshBasicMaterial`, the legacy test of `fixNonPBRMaterials`. -/
def isLegacyKind : MatKind → Bool
  | .phong => true
  | .lambert => true
  | .basic => true
  | _ => false

/-- The material fields the embedded operations read or write.  `Option`
fields model JS properties that may be `undefined`/`null` on some
material classes. -/
structure Material where
  kind : MatKind
  color : Option RGB
  transparent : Bool
  opacity : Option ℚ
  side : Nat
  map : Option Texture
  normalMap : Option Texture
  metalnessMap : Option Texture
  roughnessMap : Option Texture
  aoMap : Option Texture
  emissiveMap : Option Texture
  metalness : Option ℚ
  roughness : Option ℚ
  aoMapIntensity : Option ℚ
  emissive : Option RGB
  emissiveIntensity : Option ℚ
  normalScale : Option (ℚ × ℚ)
deriving DecidableEq

/-- The texture-related application state: the packed-mode flag, the
packed ORM texture and the per-slot PBR textures. -/
structure AppTexState where
  usePackedTexture : Bool
  packedTexture : Option Texture
  pbrTextures : PBRTextures
deriving DecidableEq

/-- The texture `onPBRTextureChange` builds for a slot: base colour and
emissive images are tagged `SRGBColorSpace`, every other slot
`LinearSRGBColorSpace`, regardless of the image file's own encoding. -/
def loadedPBRTexture (mt : MapType) (imgId : Nat) : Texture :=
  { id := imgId
    colorSpace :=
      if mt == MapType.map || mt == MapType.emissiveMap then .srgb
      else .linearSRGB }

/-- `onPBRTextureChange(e, mapType)` after the image decodes: store the
freshly tagged texture in `this.pbrTextures[mapType]`. -/
def onPBRTextureChange (s : AppTexState) (mt : MapType) (imgId : Nat) : AppTexState :=
  { s with pbrTextures := setPBRSlot s.pbrTextures mt (loadedPBRTexture mt imgId) }

/-- `onPackedTextureChange(e)` after the image decodes: one linear-tagged
texture stored as `this.packedTexture` and as all three of
`pbrTextures.aoMap/roughnessMap/metalnessMap` (the same object). -/
def onPackedTextureChange (s : AppTexState) (imgId : Nat) : AppTexState :=
  let texture : Texture := { id := imgId, colorSpace := .linearSRGB }
  { s with
    packedTexture := some texture
    pbrTextures := { s.pbrTextures with
      aoMap := some texture
      roughnessMap := some texture
      metalnessMap := some texture } }

/-- The `toSRGB` closure of `fixNonPBRMaterials`: force a texture's
colour space to sRGB. -/
def toSRGBTexture (t : Texture) : Texture :=
  { t with colorSpace := .srgb }

/-- `fixNonPBRMaterials` on one material: force `map` and `emissiveMap`
to sRGB; replace a Phong/Lambert/Basic material by a fresh
`MeshBasicMaterial` carrying over map, colour, transparency, opacity and
side; on a `MeshStandardMaterial` default `metalness` to `0` and
`roughness` to `1` when undefined. -/
def fixNonPBRMaterial (matIn : Material) : Material :=
  let mat := { matIn with
    map := matIn.map.map toSRGBTexture
    emissiveMap := matIn.emissiveMap.map toSRGBTexture }
  if isLegacyKind mat.kind then
    { kind := .basic
      color := some (mat.color.getD ⟨1, 1, 1⟩)
      transparent := mat.transparent
      opacity := some (mat.opacity.getD 1)
      side := mat.side
      map := mat.map
      normalMap := none
      metalnessMap := none
      roughnessMap := none
      aoMap := none
      emissiveMap := none
      metalness := none
      roughness := none
      aoMapIntensity := some 1
      emissive := none
      emissiveIntensity := none
      normalScale := none }
  else if mat.kind = .standard then
    { mat with
      metalness := some (mat.metalness.getD 0)
      roughness := some (mat.roughness.getD 1) }
  else mat

/-- The per-material body of `applyPBRTexturesToModel`: convert any
non-Standard/Physical material to a fresh `MeshStandardMaterial`
(colour, transparency, opacity and side carried over; three.js defaults
`metalness = 0`, `roughness = 1`), then bind the loaded PBR textures —
either the packed ORM texture into all three of aoMap/roughnessMap/
metalnessMap, or the separate per-slot textures. -/
def applyPBRToMaterial (s : AppTexState) (matIn : Material) : Material :=
  let mat :=
    if isPBRKind matIn.kind then matIn
    else
      { kind := .standard
        color := some (matIn.color.getD ⟨1, 1, 1⟩)
        transparent := matIn.transparent
        opacity := some (matIn.opacity.getD 1)
        side := matIn.side
        map := none
        normalMap := none
        metalnessMap := none
        roughnessMap := none
        aoMap := none
        emissiveMap := none
        metalness := some 0
        roughness := some 1
        aoMapIntensity := some 1
        emissive := some ⟨0, 0, 0⟩
        emissiveIntensity := some 1
        normalScale := some (1, 1) }
  let mat :=
    match s.pbrTextures.map with
    | some t => { mat with map := some t }
    | none => mat
  let mat :=
    match s.pbrTextures.normalMap with
    | some t => { mat with normalMap := some t, normalScale := some (1, 1) }
    | none => mat
  let mat :=
    match s.packedTexture, s.usePackedTexture with
    | some pt, true =>
      { mat with
        aoMap := some pt
        aoMapIntensity := some 1
        roughnessMap := some pt
        roughness := some 1
        metalnessMap := some pt
        metalness := some 1 }
    | _, _ =>
      let mat :=
        match s.pbrTextures.metalnessMap with
        | some t => { mat with metalnessMap := some t, metalness := some 1 }
        | none => mat
      let mat :=
        match s.pbrTextures.roughnessMap with
        | some t => { mat with roughnessMap := some t, roughness := some 1 }
        | none => mat
      match s.pbrTextures.aoMap with
      | some t => { mat with aoMap := some t, aoMapIntensity := some 1 }
      | none => mat
  match s.pbrTextures.emissiveMap with
  | some t =>
    { mat with
      emissiveMap := some t
      emissive := some ⟨1, 1, 1⟩
      emissiveIntensity := some 1 }
  | none => mat

/-- A texture state with nothing loaded (the constructor's initial
`pbrTextures`/`packedTexture`). -/
def noTexturesState : AppTexState :=
  { usePackedTexture := false
    packedTexture := none
    pbrTextures :=
      { map := none, normalMap := none, metalnessMap := none
        roughnessMap := none, aoMap := none, emissiveMap := none } }

/-- A flat-colour Phong material with no maps, as an FBX loader commonly
produces. -/
def phongFlatMat : Material :=
  { kind := .phong
    color := some ⟨mkRat 1 2, mkRat 1 4, mkRat 3 4⟩
    transparent := false
    opacity := some 1
    side := 0
    map := none, normalMap := none, metalnessMap := none
    roughnessMap := none, aoMap := none, emissiveMap := none
    metalness := none, roughness := none
    aoMapIntensity := some 1
    emissive := some ⟨0, 0, 0⟩
    emissiveIntensity := some 1
    normalScale := none }

/-- A standard material whose normal map arrived tagged sRGB. -/
def stdSRGBNormalMat : Material :=
  { kind := .standard
    color := some ⟨1, 1, 1⟩
    transparent := false
    opacity := some 1
    side := 0
    map := none
    normalMap := some { id := 7, colorSpace := .srgb }
    metalnessMap := none, roughnessMap := none, aoMap := none
    emissiveMap := none
    metalness := some 0, roughness := some 1
    aoMapIntensity := some 1
    emissive := some ⟨0, 0, 0⟩
    emissiveIntensity := some 1
    normalScale := some (1, 1) }

/-- A concrete clip used in witnesses. -/
def clipIdle : Clip :=
  { name := "Idle", duration := mkRat 12 10, tracks := [] }

/-- A second concrete clip used in witnesses. -/
def clipWalk : Clip :=
  { name := "Walk", duration := mkRat 8 10, tracks := [] }

/-- Placeholder clip used as the `getD` default in statements. -/
def dummyClip : Clip :=
  { name := "", duration := 0, tracks := [] }

/-- A Phong material with a linear-tagged base-colour map, used to
instantiate the colour-space lemmas. -/
def phongLinearMapMat : Material :=
  { phongFlatMat with map := some { id := 3, colorSpace := .linearSRGB } }

/-- Placeholder track used as the `getD` default in statements. -/
def dummyTrack : Track :=
  { name := "", times := [], values := [] }

/-- A quaternion track (four components per keyframe) belonging to a node
named `RootPosition`: its lower-cased name contains both `position` and
`root`. -/
def quatRootTrack : Track :=
  { name := "RootPosition.quaternion", times := [0, 1]
    values := [0, 0, 0, 0, 1, 1, 1, 1] }

/-- A clip holding only `quatRootTrack`. -/
def quatRootClip : Clip :=
  { name := "spin", duration := 1, tracks := [quatRootTrack] }

/-- A concrete Hips position track with two keyframes. -/
def hipsTrackEx : Track :=
  { name := "mixamorig:Hips.position", times := [0, 1]
    values := [1, 2, 3, 4, 5, 6] }

/-- A concrete registry state with two clips, originals stored. -/
def twoClipState : AppAnimState :=
  { animations := [clipIdle, clipWalk]
    originalAnimations := some [clipIdle, clipWalk] }

/-! ## Helper lemmas -/

theorem clampXZ_length (a b : ℚ) : ∀ vs : List ℚ, (clampXZ a b vs).length = vs.length
  | _ :: _ :: _ :: rest => by simp [clampXZ, clampXZ_length a b rest]
  | [_, _] => by simp [clampXZ]
  | [_] => by simp [clampXZ]
  | [] => rfl

theorem clampXZ_getD (a b : ℚ) : ∀ (vs : List ℚ) (n : Nat), n < vs.length →
    (clampXZ a b vs).getD n 0 =
      if n % 3 = 0 then a else if n % 3 = 2 then b else vs.getD n 0
  | _ :: _ :: _ :: _, 0, _ => by simp [clampXZ]
  | _ :: _ :: _ :: _, 1, _ => by simp [clampXZ]
  | _ :: _ :: _ :: _, 2, _ => by simp [clampXZ]
  | _ :: _ :: _ :: rest, n + 3, h => by
    have ih := clampXZ_getD a b rest n (by simpa using h)
    simpa [clampXZ, Nat.add_mod_right, List.getD_cons_succ] using ih
  | [_, _], 0, _ => by simp [clampXZ]
  | [_, _], 1, _ => by simp [clampXZ]
  | [_, _], n + 2, h => by simp at h
  | [_], 0, _ => by simp [clampXZ]
  | [_], n + 1, h => by simp at h
  | [], n, h => by simp at h

theorem clampXZ_idem (a b : ℚ) :
    ∀ vs : List ℚ, clampXZ a b (clampXZ a b vs) = clampXZ a b vs
  | _ :: _ :: _ :: rest => by simp [clampXZ, clampXZ_idem a b rest]
  | [_, _] => by simp [clampXZ]
  | [_] => by simp [clampXZ]
  | [] => rfl

theorem getValueSize_eq_three (t : Track) :
    getValueSize t = some 3 ↔
      t.times.length ≠ 0 ∧ t.values.length = 3 * t.times.length := by
  unfold getValueSize
  by_cases h : t.times.length = 0
  · simp [h]
  · have hq : ((t.times.length : ℚ)) ≠ 0 := by exact_mod_cast h
    rw [if_neg h]
    simp only [Option.some_inj]
    rw [Rat.mkRat_eq_div, div_eq_iff hq]
    constructor
    · intro hm
      refine ⟨h, ?_⟩
      exact_mod_cast hm
    · rintro ⟨-, hv⟩
      exact_mod_cast hv

theorem transformTrack_eq_clamp (t : Track) (h1 : trackNameMatchesRoot t = true)
    (h2 : getValueSize t = some 3) :
    transformTrack t =
      { t with values := clampXZ (t.values.getD 0 0) (t.values.getD 2 0) t.values } := by
  unfold transformTrack
  simp [h1, h2]

theorem transformTrack_skip_name (t : Track) (h1 : ¬trackNameMatchesRoot t = true) :
    transformTrack t = t := by
  unfold transformTrack
  simp [h1]

theorem transformTrack_skip_size (t : Track) (h2 : ¬getValueSize t = some 3) :
    transformTrack t = t := by
  unfold transformTrack
  simp [h2]

theorem makeAnimationsInPlace_eq (clips : List Clip) :
    makeAnimationsInPlace clips =
      clips.map fun clip => { clip with tracks := clip.tracks.map transformTrack } := by
  unfold makeAnimationsInPlace
  by_cases h : clips.length = 0
  · have hnil : clips = [] := List.length_eq_zero.mp h
    simp [h, hnil]
  · simp [h]

theorem transformTrack_idem (t : Track) :
    transformTrack (transformTrack t) = transformTrack t := by
  by_cases h1 : trackNameMatchesRoot t = true
  · by_cases h2 : getValueSize t = some 3
    · have ht := transformTrack_eq_clamp t h1 h2
      obtain ⟨hne, hlen⟩ := (getValueSize_eq_three t).mp h2
      have hpos : 0 < t.values.length := by omega
      have h2pos : 2 < t.values.length := by omega
      have hname' : trackNameMatchesRoot (transformTrack t) = true := by
        rw [ht]; exact h1
      have hsize' : getValueSize (transformTrack t) = some 3 := by
        rw [ht, getValueSize_eq_three]
        exact ⟨hne, by simpa [clampXZ_length] using hlen⟩
      have ha : (clampXZ (t.values.getD 0 0) (t.values.getD 2 0) t.values).getD 0 0 =
          t.values.getD 0 0 := by
        rw [clampXZ_getD _ _ t.values 0 hpos]; simp
      have hb : (clampXZ (t.values.getD 0 0) (t.values.getD 2 0) t.values).getD 2 0 =
          t.values.getD 2 0 := by
        rw [clampXZ_getD _ _ t.values 2 h2pos]; simp
      rw [transformTrack_eq_clamp _ hname' hsize', ht]
      have hval : clampXZ
          ((clampXZ (t.values.getD 0 0) (t.values.getD 2 0) t.values).getD 0 0)
          ((clampXZ (t.values.getD 0 0) (t.values.getD 2 0) t.values).getD 2 0)
          (clampXZ (t.values.getD 0 0) (t.values.getD 2 0) t.values) =
          clampXZ (t.values.getD 0 0) (t.values.getD 2 0) t.values := by
        rw [ha, hb, clampXZ_idem]
      exact congrArg (Track.mk t.name t.times) hval
    · rw [transformTrack_skip_size t h2, transformTrack_skip_size t h2]
  · rw [transformTrack_skip_name t h1, transformTrack_skip_name t h1]

theorem makeAnimationsInPlace_length (clips : List Clip) :
    (makeAnimationsInPlace clips).length = clips.length := by
  rw [makeAnimationsInPlace_eq]; simp

theorem jsIndexOfAux_spec : ∀ (l : List Clip) (c : Clip), c ∈ l →
    ∃ i, jsIndexOfAux c l = some i ∧ i < l.length ∧ l.eraseIdx i = l.erase c
  | [], c, h => absurd h (List.not_mem_nil c)
  | x :: rest, c, h => by
    by_cases hx : x = c
    · refine ⟨0, by simp [jsIndexOfAux, hx], by simp, ?_⟩
      subst hx
      simp [List.eraseIdx, List.erase_cons_head]
    · have hc : c ∈ rest := by
        rcases List.mem_cons.mp h with h1 | h1
        · exact absurd h1.symm hx
        · exact h1
      obtain ⟨i, hfind, hlt, herase⟩ := jsIndexOfAux_spec rest c hc
      refine ⟨i + 1, by simp [jsIndexOfAux, hx, hfind], by simpa using Nat.succ_lt_succ hlt, ?_⟩
      have hbeq : ¬(x == c) = true := by simpa using hx
      simp [List.eraseIdx, herase, List.erase_cons_tail, hbeq]

theorem setClipName_getD : ∀ (l : List Clip) (i : Nat) (nm : String), i < l.length →
    ((setClipName l i nm).getD i dummyClip).name = nm
  | [], i, nm, h => by simp at h
  | c :: rest, 0, nm, _ => by simp [setClipName]
  | c :: rest, i + 1, nm, h => by
    have ih := setClipName_getD rest i nm (by simpa using h)
    simpa [setClipName, List.getD_cons_succ] using ih

theorem fixNonPBRMaterial_map (m : Material) :
    (fixNonPBRMaterial m).map = m.map.map toSRGBTexture := by
  unfold fixNonPBRMaterial
  cases hk : m.kind <;> simp [hk, isLegacyKind]

theorem fixNonPBRMaterial_emissiveMap (m : Material) :
    (fixNonPBRMaterial m).emissiveMap =
      if isLegacyKind m.kind then none else m.emissiveMap.map toSRGBTexture := by
  unfold fixNonPBRMaterial
  cases hk : m.kind <;> simp [hk, isLegacyKind]

/-! ## Claims -/

/-- C1 counterexample: the claim quantifies over every track whose
lower-cased name contains `position` and one of `hips`/`root`/`pelvis`,
but the code additionally requires `getValueSize() === 3`.  A quaternion
track (four components per keyframe) of a node named `RootPosition`
matches the name condition, is left untouched by
`makeAnimationsInPlace`, and its X component at keyframe 1 (flat index
4) differs from the X component at keyframe 0 (flat index 0). -/
theorem rootMotion_nameOnly_counterexample :
    trackNameMatchesRoot quatRootTrack = true ∧
    (((makeAnimationsInPlace [quatRootClip]).getD 0 dummyClip).tracks.getD 0
        dummyTrack).values.getD 4 0 ≠
      (((makeAnimationsInPlace [quatRootClip]).getD 0 dummyClip).tracks.getD 0
        dummyTrack).values.getD 0 0 := by
  decide

/-- C1 (amended): `makeAnimationsInPlace` maps `transformTrack` over
every track of every clip, and for every track whose name matches the
root test and whose value size is `3` (three components per keyframe),
every keyframe of the transformed track keeps the first keyframe's X and
Z components while its Y component is unchanged from the input. -/
theorem rootMotion_invariant_vec3 :
    (∀ clips : List Clip,
      makeAnimationsInPlace clips =
        clips.map fun clip => { clip with tracks := clip.tracks.map transformTrack }) ∧
    ∀ t : Track, trackNameMatchesRoot t = true → getValueSize t = some 3 →
      ∀ k : Nat, k < t.times.length →
        (transformTrack t).values.getD (3 * k) 0 =
          (transformTrack t).values.getD 0 0 ∧
        (transformTrack t).values.getD (3 * k + 2) 0 =
          (transformTrack t).values.getD 2 0 ∧
        (transformTrack t).values.getD (3 * k + 1) 0 =
          t.values.getD (3 * k + 1) 0 := by
  refine ⟨makeAnimationsInPlace_eq, ?_⟩
  intro t h1 h2 k hk
  obtain ⟨hne, hlen⟩ := (getValueSize_eq_three t).mp h2
  have h3k : 3 * k < t.values.length := by omega
  have h3k2 : 3 * k + 2 < t.values.length := by omega
  have h3k1 : 3 * k + 1 < t.values.length := by omega
  have h0 : 0 < t.values.length := by omega
  have h2lt : 2 < t.values.length := by omega
  have hv : (transformTrack t).values =
      clampXZ (t.values.getD 0 0) (t.values.getD 2 0) t.values := by
    rw [transformTrack_eq_clamp t h1 h2]
  rw [hv]
  refine ⟨?_, ?_, ?_⟩
  · rw [clampXZ_getD _ _ _ _ h3k, clampXZ_getD _ _ _ _ h0]
    have hm : (3 * k) % 3 = 0 := by omega
    simp [hm]
  · rw [clampXZ_getD _ _ _ _ h3k2, clampXZ_getD _ _ _ _ h2lt]
    have hm : (3 * k + 2) % 3 = 2 := by omega
    simp [hm]
  · rw [clampXZ_getD _ _ _ _ h3k1]
    have hm : (3 * k + 1) % 3 = 1 := by omega
    simp [hm]

/-- C1 witness: the invariant instantiated on a concrete Hips position
track with two keyframes, at keyframe index 1. -/
theorem rootMotion_invariant_vec3_witness :
    (transformTrack hipsTrackEx).values.getD 3 0 =
      (transformTrack hipsTrackEx).values.getD 0 0 ∧
    (transformTrack hipsTrackEx).values.getD 5 0 =
      (transformTrack hipsTrackEx).values.getD 2 0 ∧
    (transformTrack hipsTrackEx).values.getD 4 0 =
      hipsTrackEx.values.getD 4 0 := by
  have h := rootMotion_invariant_vec3.2 hipsTrackEx
    (by decide) (by decide) 1 (by decide)
  simpa using h

/-- C2 counterexample: with the original clips stored but the active
clip list empty (every clip deleted after the originals were stored),
`onInPlaceToggle` returns early in both calls, so toggling on and then
off does not restore the stored originals. -/
theorem inPlaceToggle_roundTrip_counterexample :
    (onInPlaceToggle false (onInPlaceToggle true
      { animations := [], originalAnimations := some [clipIdle] })).animations ≠
      [clipIdle] := by
  decide

/-- C2 (amended): when the original clips have been stored and the
active clip list is non-empty, toggling root-motion mode on and then off
restores the active clip list to the stored originals. -/
theorem inPlaceToggle_roundTrip :
    ∀ (s : AppAnimState) (o : List Clip),
      s.originalAnimations = some o → s.animations ≠ [] →
      (onInPlaceToggle false (onInPlaceToggle true s)).animations = o := by
  intro s o ho hne
  have hlen : ¬s.animations.length = 0 := by
    simpa [List.length_eq_zero] using hne
  have h1 : onInPlaceToggle true s =
      { animations := makeAnimationsInPlace o, originalAnimations := some o } := by
    unfold onInPlaceToggle
    simp [hlen, ho]
  rw [h1]
  unfold onInPlaceToggle
  rcases o with _ | ⟨c, rest⟩
  · simp [makeAnimationsInPlace]
  · have hlen2 : ¬(makeAnimationsInPlace (c :: rest)).length = 0 := by
      rw [makeAnimationsInPlace_length]
      simp
    simp [hlen2]

/-- C2 witness: the round trip on a concrete one-clip state. -/
theorem inPlaceToggle_roundTrip_witness :
    (onInPlaceToggle false (onInPlaceToggle true
      { animations := [clipIdle], originalAnimations := some [clipIdle] })).animations =
      [clipIdle] :=
  inPlaceToggle_roundTrip
    { animations := [clipIdle], originalAnimations := some [clipIdle] }
    [clipIdle] rfl (by decide)

/-- C6: root-motion removal is idempotent, per track and on whole clip
lists. -/
theorem rootMotion_idempotent :
    (∀ t : Track, transformTrack (transformTrack t) = transformTrack t) ∧
    ∀ clips : List Clip,
      makeAnimationsInPlace (makeAnimationsInPlace clips) =
        makeAnimationsInPlace clips := by
  refine ⟨transformTrack_idem, ?_⟩
  intro clips
  have hfun : transformTrack ∘ transformTrack = transformTrack :=
    funext transformTrack_idem
  rw [makeAnimationsInPlace_eq, makeAnimationsInPlace_eq, List.map_map]
  refine List.map_congr_left fun c _ => ?_
  simp [Function.comp, List.map_map, hfun]

/-- C7: the delete handler removes the clicked clip from the active list
by identity (the first entry equal to it, wherever it sits), and leaves
`originalAnimations` untouched. -/
theorem deleteClip_identity :
    ∀ (s : AppAnimState) (c : Clip), c ∈ s.animations →
      (deleteAnimationClick s c).animations = s.animations.erase c ∧
      (deleteAnimationClick s c).originalAnimations = s.originalAnimations := by
  intro s c h
  obtain ⟨i, hfind, hlt, herase⟩ := jsIndexOfAux_spec s.animations c h
  refine ⟨?_, rfl⟩
  show spliceRemoveOne s.animations (jsIndexOf s.animations c) = s.animations.erase c
  unfold jsIndexOf
  rw [hfind]
  unfold spliceRemoveOne
  have hneg : ¬((i : Int) < 0) := by omega
  rw [if_neg hneg]
  have htn : (i : Int).toNat = i := by omega
  rw [htn, Nat.min_eq_left (Nat.le_of_lt hlt)]
  exact herase

/-- C7 witness: deleting the second of two clips removes exactly that
clip and keeps the stored originals. -/
theorem deleteClip_identity_witness :
    (deleteAnimationClick twoClipState clipWalk).animations = [clipIdle] ∧
    (deleteAnimationClick twoClipState clipWalk).originalAnimations =
      some [clipIdle, clipWalk] := by
  have h := deleteClip_identity twoClipState clipWalk (by decide)
  exact ⟨h.1.trans (by decide), h.2⟩

/-- C8: a clip of duration `0.005` is a static pose and one of duration
`0.011` is not, and a static pose is always played `LoopOnce` with
`clampWhenFinished`, whatever the global loop flag and speed. -/
theorem staticPose_classification :
    isStaticPose { name := "TPose", duration := mkRat 5 1000, tracks := [] } = true ∧
    isStaticPose { name := "Blink", duration := mkRat 11 1000, tracks := [] } = false ∧
    ∀ (c : Clip) (isLooping : Bool) (speed : ℚ), isStaticPose c = true →
      playClipAction c isLooping speed =
        { loop := .loopOnce, clampWhenFinished := true, timeScale := speed } := by
  refine ⟨by decide, by decide, ?_⟩
  intro c isLooping speed h
  unfold playClipAction
  simp [h]

/-- C8 witness: the static-pose branch instantiated on a concrete
0.005-second clip with the global loop flag on. -/
theorem staticPose_classification_witness :
    playClipAction { name := "TPose", duration := mkRat 5 1000, tracks := [] } true 1 =
      { loop := .loopOnce, clampWhenFinished := true, timeScale := 1 } :=
  staticPose_classification.2.2
    { name := "TPose", duration := mkRat 5 1000, tracks := [] } true 1 (by decide)

/-- C9: renaming with a whitespace-only name falls back to
`Animation_<i>`, written into both the active clip at index `i` and the
stored original clip at index `i`. -/
theorem renameClip_emptyName_fallback :
    ∀ (s : AppAnimState) (i : Nat) (raw : String) (ol : List Clip),
      jsTrim raw = "" → s.originalAnimations = some ol →
      i < s.animations.length → i < ol.length →
      ((renameAnimationAt s i raw).animations.getD i dummyClip).name =
        "Animation_" ++ toString i ∧
      (((renameAnimationAt s i raw).originalAnimations.getD []).getD i dummyClip).name =
        "Animation_" ++ toString i := by
  intro s i raw ol htrim ho hi hio
  refine ⟨?_, ?_⟩
  · have h := setClipName_getD s.animations i ("Animation_" ++ toString i) hi
    simpa [renameAnimationAt, htrim, ho] using h
  · have h := setClipName_getD ol i ("Animation_" ++ toString i) hio
    simpa [renameAnimationAt, htrim, ho, hio] using h

/-- C9 witness: renaming clip 1 of a two-clip state with a blank name
yields `Animation_1` in both lists. -/
theorem renameClip_emptyName_fallback_witness :
    ((renameAnimationAt twoClipState 1 "   ").animations.getD 1 dummyClip).name =
      "Animation_" ++ toString 1 ∧
    (((renameAnimationAt twoClipState 1 "   ").originalAnimations.getD []).getD 1
        dummyClip).name = "Animation_" ++ toString 1 :=
  renameClip_emptyName_fallback twoClipState
    1 "   " [clipIdle, clipWalk] (by decide) rfl (by decide) (by decide)

/-- C10 counterexample: a non-numeric input parses to NaN, which passes
both clamp comparisons unchanged, so the stored speed is NaN — not a
value in `[0.1, 5]`. -/
theorem speedClamp_counterexample :
    ¬∃ x : ℚ, (onSpeedChange true none).animationSpeed = some x ∧
      mkRat 1 10 ≤ x ∧ x ≤ 5 := by
  rintro ⟨x, hx, -, -⟩
  simp [onSpeedChange, jsLtQ, jsGtQ] at hx

/-- C10 (amended): for every numeric input the stored speed is the input
clamped to `[0.1, 5]`, and it is applied as the active animation's time
scale. -/
theorem speedClamp_numeric :
    ∀ (hasAnimation : Bool) (x : ℚ),
      ∃ y : ℚ, (onSpeedChange hasAnimation (some x)).animationSpeed = some y ∧
        mkRat 1 10 ≤ y ∧ y ≤ 5 ∧
        (x < mkRat 1 10 → y = mkRat 1 10) ∧
        (5 < x → y = 5) ∧
        (mkRat 1 10 ≤ x → x ≤ 5 → y = x) ∧
        (hasAnimation = true →
          (onSpeedChange hasAnimation (some x)).appliedTimeScale = some (some y)) := by
  intro hA x
  have hlow : ¬((5 : ℚ) < mkRat 1 10) := by decide
  by_cases h1 : x < mkRat 1 10
  · refine ⟨mkRat 1 10, ?_, le_refl _, by decide, fun _ => rfl,
      fun h5 => absurd (h5.trans h1) hlow, fun hge _ => absurd h1 (not_lt.mpr hge), ?_⟩
    · simp [onSpeedChange, jsLtQ, jsGtQ, h1, hlow]
    · intro hA'
      simp [onSpeedChange, jsLtQ, jsGtQ, h1, hlow, hA']
  · by_cases h2 : (5 : ℚ) < x
    · refine ⟨5, ?_, by decide, le_refl _, fun hx1 => absurd hx1 h1, fun _ => rfl,
        fun _ hle => absurd h2 (not_lt.mpr hle), ?_⟩
      · simp [onSpeedChange, jsLtQ, jsGtQ, h1, h2]
      · intro hA'
        simp [onSpeedChange, jsLtQ, jsGtQ, h1, h2, hA']
    · refine ⟨x, ?_, not_lt.mp h1, not_lt.mp h2, fun hx1 => absurd hx1 h1,
        fun hx5 => absurd hx5 h2, fun _ _ => rfl, ?_⟩
      · simp [onSpeedChange, jsLtQ, jsGtQ, h1, h2]
      · intro hA'
        simp [onSpeedChange, jsLtQ, jsGtQ, h1, h2, hA']

/-- C3 counterexample: `fixNonPBRMaterials` replaces a legacy lit
(Phong) material with a `MeshBasicMaterial` — a legacy unlit kind, not a
StandardPBR one. -/
theorem materialNormalization_counterexample :
    (fixNonPBRMaterial phongFlatMat).kind = MatKind.basic ∧
    MatKind.basic ≠ MatKind.standard := by
  decide

/-- C3 (amended): the conversion inside `applyPBRTexturesToModel` yields
a PBR (Standard/Physical) material unconditionally, and a legacy
material with no textures loaded becomes a flat-colour standard material
with `metalness = 0` and `roughness = 1`; `fixNonPBRMaterials`, by
contrast, turns every legacy material into a `MeshBasicMaterial` and
only defaults `metalness`/`roughness` on materials that are already
`MeshStandardMaterial`. -/
theorem materialNormalization_amended :
    (∀ (s : AppTexState) (m : Material),
      isPBRKind (applyPBRToMaterial s m).kind = true) ∧
    (∀ m : Material, isPBRKind m.kind = false →
      (applyPBRToMaterial noTexturesState m).kind = MatKind.standard ∧
      (applyPBRToMaterial noTexturesState m).metalness = some 0 ∧
      (applyPBRToMaterial noTexturesState m).roughness = some 1 ∧
      (applyPBRToMaterial noTexturesState m).color = some (m.color.getD ⟨1, 1, 1⟩) ∧
      (applyPBRToMaterial noTexturesState m).map = none) ∧
    (∀ m : Material, isLegacyKind m.kind = true →
      (fixNonPBRMaterial m).kind = MatKind.basic) ∧
    (∀ m : Material, m.kind = MatKind.standard →
      (fixNonPBRMaterial m).metalness = some (m.metalness.getD 0) ∧
      (fixNonPBRMaterial m).roughness = some (m.roughness.getD 1)) := by
  refine ⟨?_, ?_, ?_, ?_⟩
  · intro s m
    rcases s with ⟨upt, pt, ⟨pm, pn, pmt, prm, pam, pem⟩⟩
    cases pt <;> cases upt <;> cases pm <;> cases pn <;> cases pmt <;>
      cases prm <;> cases pam <;> cases pem
    all_goals unfold applyPBRToMaterial
    all_goals by_cases h : isPBRKind m.kind = true
    all_goals first
      | (rw [if_pos h]; exact h)
      | (rw [if_neg h]; rfl)
  · intro m h
    have hfalse : ¬isPBRKind m.kind = true := by simp [h]
    unfold applyPBRToMaterial
    rw [if_neg hfalse]
    exact ⟨rfl, rfl, rfl, rfl, rfl⟩
  · intro m h
    unfold fixNonPBRMaterial
    simp [h]
  · intro m h
    unfold fixNonPBRMaterial
    simp [h, isLegacyKind]

/-- C3 witness: the two amended conversion clauses instantiated on a
concrete flat-colour Phong material. -/
theorem materialNormalization_witness :
    (applyPBRToMaterial noTexturesState phongFlatMat).kind = MatKind.standard ∧
    (applyPBRToMaterial noTexturesState phongFlatMat).metalness = some 0 ∧
    (applyPBRToMaterial noTexturesState phongFlatMat).roughness = some 1 ∧
    (fixNonPBRMaterial phongFlatMat).kind = MatKind.basic := by
  have h := materialNormalization_amended.2.1 phongFlatMat (by decide)
  have h2 := materialNormalization_amended.2.2.1 phongFlatMat (by decide)
  exact ⟨h.1, h.2.1, h.2.2.1, h2⟩

/-- C4 counterexample: `fixNonPBRMaterials` retags only base-colour and
emissive maps; a normal map that arrived tagged sRGB on a standard
material keeps its sRGB tag after the material-fixing pass, instead of
being forced to linear. -/
theorem colorSpace_counterexample :
    (fixNonPBRMaterial stdSRGBNormalMat).normalMap =
      some { id := 7, colorSpace := ColorSpace.srgb } ∧
    ColorSpace.srgb ≠ ColorSpace.linearSRGB := by
  decide

/-- C4 (amended): every texture bound through `onPBRTextureChange`
carries the slot-correct colour space (sRGB for base colour and
emissive, linear otherwise) whatever the image reported; the packed ORM
texture is always linear; and `fixNonPBRMaterials` forces base-colour
and emissive maps to sRGB on every material.  It does not retag
non-colour maps that came with the model. -/
theorem colorSpace_normalization :
    (∀ (s : AppTexState) (mt : MapType) (imgId : Nat),
      getPBRSlot (onPBRTextureChange s mt imgId).pbrTextures mt =
        some (Texture.mk imgId
          (if mt == MapType.map || mt == MapType.emissiveMap
            then ColorSpace.srgb else ColorSpace.linearSRGB))) ∧
    (∀ (s : AppTexState) (imgId : Nat),
      (onPackedTextureChange s imgId).packedTexture =
        some { id := imgId, colorSpace := ColorSpace.linearSRGB } ∧
      (onPackedTextureChange s imgId).pbrTextures.aoMap =
        some { id := imgId, colorSpace := ColorSpace.linearSRGB } ∧
      (onPackedTextureChange s imgId).pbrTextures.roughnessMap =
        some { id := imgId, colorSpace := ColorSpace.linearSRGB } ∧
      (onPackedTextureChange s imgId).pbrTextures.metalnessMap =
        some { id := imgId, colorSpace := ColorSpace.linearSRGB }) ∧
    (∀ (m : Material) (t : Texture),
      (fixNonPBRMaterial m).map = some t → t.colorSpace = ColorSpace.srgb) ∧
    (∀ (m : Material) (t : Texture),
      (fixNonPBRMaterial m).emissiveMap = some t →
        t.colorSpace = ColorSpace.srgb) := by
  refine ⟨?_, ?_, ?_, ?_⟩
  · intro s mt imgId
    cases mt <;> rfl
  · intro s imgId
    exact ⟨rfl, rfl, rfl, rfl⟩
  · intro m t h
    rw [fixNonPBRMaterial_map] at h
    rcases hm : m.map with _ | u
    · rw [hm] at h
      simp at h
    · rw [hm] at h
      simp only [Option.map_some', Option.some.injEq] at h
      subst h
      rfl
  · intro m t h
    rw [fixNonPBRMaterial_emissiveMap] at h
    by_cases hk : isLegacyKind m.kind = true
    · rw [if_pos hk] at h
      simp at h
    · rw [if_neg hk] at h
      rcases hm : m.emissiveMap with _ | u
      · rw [hm] at h
        simp at h
      · rw [hm] at h
        simp only [Option.map_some', Option.some.injEq] at h
        subst h
        rfl

/-- C4 witness: a normal-map texture loaded through the handler is
linear, and the base-colour map of a Phong material that carried a
linear-tagged map is forced to sRGB by the material-fixing pass. -/
theorem colorSpace_normalization_witness :
    getPBRSlot (onPBRTextureChange noTexturesState MapType.normalMap 9).pbrTextures
      MapType.normalMap = some { id := 9, colorSpace := ColorSpace.linearSRGB } ∧
    Texture.colorSpace { id := 3, colorSpace := ColorSpace.srgb } = ColorSpace.srgb := by
  have h1 := colorSpace_normalization.1 noTexturesState MapType.normalMap 9
  have h2 := colorSpace_normalization.2.2.1 phongLinearMapMat
    { id := 3, colorSpace := ColorSpace.srgb } (by decide)
  exact ⟨by simpa using h1, h2⟩

/-- C5: after a packed ORM texture is bound, applying the PBR textures
to any material puts the same texture object (same image identity, same
linear tag) into the occlusion, roughness and metallic slots, whether or
not packed mode is on. -/
theorem packedORM_aliasing :
    ∀ (s : AppTexState) (imgId : Nat) (m : Material),
      (applyPBRToMaterial (onPackedTextureChange s imgId) m).aoMap =
        some { id := imgId, colorSpace := ColorSpace.linearSRGB } ∧
      (applyPBRToMaterial (onPackedTextureChange s imgId) m).roughnessMap =
        (applyPBRToMaterial (onPackedTextureChange s imgId) m).aoMap ∧
      (applyPBRToMaterial (onPackedTextureChange s imgId) m).metalnessMap =
        (applyPBRToMaterial (onPackedTextureChange s imgId) m).aoMap := by
  intro s imgId m
  rcases s with ⟨upt, pt, ⟨pm, pn, pmt, prm, pam, pem⟩⟩
  cases upt <;> cases pm <;> cases pn <;> cases pem <;>
    simp [applyPBRToMaterial, onPackedTextureChange]
